import Mathlib

/-!
Verification of the dataset extraction / validation / republish pipeline of
`process_dataset.py` (with the preflight check of `manage_dataset.py`).

The Python source is shallowly embedded:
* byte payloads are `List Nat` (each element a byte value);
* the S3 bucket is an association list from keys to payloads, with
  overwrite-on-put semantics (`putObject` replaces in place);
* `str.strip`, `str.split`, `str.splitlines`, `str.lower`, `str.endswith`
  and `float(...)` are reimplemented after CPython's semantics: the full
  whitespace table (ASCII `\t\n\x0b\x0c\r\x1c\x1d\x1e\x1f` and space plus
  the Unicode space set) and line-break table; `float` accepts an optional
  sign, a decimal mantissa with optional fraction and exponent, the
  special words `inf`, `infinity`, `nan` case-insensitively, any Unicode
  decimal (`Nd`) digit (CPython maps them to ASCII before parsing), and
  PEP 515 single underscores between digits.  `float` values are modelled
  as exact fractions plus `inf`/`nan` markers, and the one use the source
  makes of the value — the comparison `>= 0` — is evaluated with IEEE
  round-to-nearest-even underflow taken into account: a negative literal
  of magnitude at most `2 ^ (-1075)` underflows to `-0.0`, which compares
  `>= 0` in Python.  Leading or trailing whitespace inside a literal
  (which `float` would strip) cannot occur here, because the parsed
  fields come from `str.split()`, which removes all whitespace.
  `str.lower` is mapped over characters and lowers only ASCII letters;
  the source only ever inspects lowercased ASCII file suffixes;
* `PIL.Image` verification is an oracle parameter `imgOK`;
* `zipfile.ZipFile` is an oracle parameter `parseZip` returning the
  entry list (name, payload) in namelist order, or `none` for a corrupt
  archive;
* exceptions raised by `put_object` are injected through a `fails`
  predicate on target keys; `get_object` on a missing key is the
  `none` result of `getObject`.
-/

/-! ## Python string primitives -/

/-- Whitespace characters stripped by `str.strip()` and separating fields
for `str.split()`: CPython's whitespace set, which in ASCII is
`0x09`-`0x0d`, `0x1c`-`0x1f` and space (`_Py_ascii_whitespace`), plus
`0x85`, `0xa0` and the Unicode space characters. -/
def pyIsSpace (c : Char) : Bool :=
  c == ' ' || c == '\t' || c == '\n' || c == '\r' || c == '\x0b' || c == '\x0c' ||
  c == '\x1c' || c == '\x1d' || c == '\x1e' || c == '\x1f' || c == '\x85' ||
  c == '\xa0' || c == '\u1680' ||
  (decide ('\u2000' ≤ c) && decide (c ≤ '\u200a')) ||
  c == '\u2028' || c == '\u2029' || c == '\u202f' || c == '\u205f' || c == '\u3000'

/-- Line boundary characters recognised by `str.splitlines()` (note that
`0x1f`, whitespace for `strip`/`split`, is not a line boundary). -/
def pyIsLinebreak (c : Char) : Bool :=
  c == '\n' || c == '\r' || c == '\x0b' || c == '\x0c' ||
  c == '\x1c' || c == '\x1d' || c == '\x1e' || c == '\x85' ||
  c == '\u2028' || c == '\u2029'

/-- Character list underlying `str.strip()`: drop whitespace at both ends. -/
def stripChars (l : List Char) : List Char :=
  ((l.dropWhile pyIsSpace).reverse.dropWhile pyIsSpace).reverse

/-- `str.strip()`. -/
def pyStrip (s : String) : String := ⟨stripChars s.data⟩

/-- Accumulator pass of `str.split()` (split on whitespace runs, dropping
empty fields); `cur` holds the current field reversed. -/
def splitWsAux : List Char → List Char → List (List Char)
  | cur, [] => if cur.isEmpty then [] else [cur.reverse]
  | cur, c :: cs =>
    if pyIsSpace c then
      if cur.isEmpty then splitWsAux [] cs
      else cur.reverse :: splitWsAux [] cs
    else splitWsAux (c :: cur) cs

/-- `str.split()` with no separator argument. -/
def pySplit (s : String) : List String := (splitWsAux [] s.data).map String.mk

/-- Accumulator pass of `str.splitlines()`; `\r\n` counts as one boundary,
and a terminal boundary does not open a final empty line. -/
def splitNlAux : List Char → List Char → List (List Char)
  | cur, [] => if cur.isEmpty then [] else [cur.reverse]
  | cur, '\r' :: '\n' :: cs => cur.reverse :: splitNlAux [] cs
  | cur, '\r' :: cs => cur.reverse :: splitNlAux [] cs
  | cur, c :: cs =>
    if pyIsLinebreak c then cur.reverse :: splitNlAux [] cs
    else splitNlAux (c :: cur) cs

/-- `str.splitlines()`. -/
def pySplitlines (s : String) : List String := (splitNlAux [] s.data).map String.mk

/-- `str.lower()` on one character (ASCII letters only; the source only
inspects ASCII suffixes of the lowered string). -/
def pyLowerChar (c : Char) : Char :=
  if 'A' ≤ c ∧ c ≤ 'Z' then Char.ofNat (c.toNat + 32) else c

/-- `str.lower()`. -/
def pyLower (s : String) : String := ⟨s.data.map pyLowerChar⟩

/-- `a` is an initial segment of `b` (character lists). -/
def listIsPre : List Char → List Char → Bool
  | [], _ => true
  | _ :: _, [] => false
  | a :: as, b :: bs => a == b && listIsPre as bs

/-- `s.startswith(pat)` (used to model key listings by prefix string). -/
def strStartsWith (s pat : String) : Bool := listIsPre pat.data s.data

/-- `s.endswith(pat)`. -/
def strEndsWith (s pat : String) : Bool := listIsPre pat.data.reverse s.data.reverse

/-! ## Python `float(...)` -/

/-- Result of a successful `float(str)` call: a finite value carried as the
exact (unnormalised) fraction `num / den` with `den > 0` by construction,
or an infinity, or a NaN.  The fraction is kept unnormalised so that every
arithmetic step is plain `Int`/`Nat` arithmetic. -/
inductive PyFloat
  | finite (num : Int) (den : Nat)
  | pinf
  | ninf
  | nan
deriving DecidableEq, Repr

/-- The real value of a finite parse, for specification purposes. -/
def PyFloat.val : PyFloat → Option ℚ
  | .finite num den => some ((num : ℚ) / den)
  | _ => none

/-- Start code points of the Unicode `Nd` (decimal digit) blocks
(Unicode 15.1), each a run of ten consecutive digits `0`–`9`.  CPython's
`float(str)` maps every such digit to its ASCII counterpart before
parsing (`_PyUnicode_TransformDecimalAndSpaceToASCII`), so for example
`float` accepts Arabic-Indic or fullwidth digits. -/
def ndDigitStarts : List Nat :=
  [0x0030, 0x0660, 0x06F0, 0x07C0, 0x0966, 0x09E6, 0x0A66, 0x0AE6, 0x0B66,
   0x0BE6, 0x0C66, 0x0CE6, 0x0D66, 0x0DE6, 0x0E50, 0x0ED0, 0x0F20, 0x1040,
   0x1090, 0x17E0, 0x1810, 0x1946, 0x19D0, 0x1A80, 0x1A90, 0x1B50, 0x1BB0,
   0x1C40, 0x1C50, 0xA620, 0xA8D0, 0xA900, 0xA9D0, 0xA9F0, 0xAA50, 0xABF0,
   0xFF10, 0x104A0, 0x10D30, 0x11066, 0x110F0, 0x11136, 0x111D0, 0x112F0,
   0x11450, 0x114D0, 0x11650, 0x116C0, 0x11730, 0x118E0, 0x11950, 0x11C50,
   0x11D50, 0x11DA0, 0x11F50, 0x16A60, 0x16AC0, 0x16B50, 0x1D7CE, 0x1D7D8,
   0x1D7E2, 0x1D7EC, 0x1D7F6, 0x1E140, 0x1E2F0, 0x1E4F0, 0x1E950, 0x1FBF0]

/-- The decimal value of a Unicode `Nd` digit, `none` for any other
character. -/
def decDigitVal (c : Char) : Option Nat :=
  match ndDigitStarts.find? (fun s =>
      decide (s ≤ c.toNat) && decide (c.toNat < s + 10)) with
  | some s => some (c.toNat - s)
  | none => none

/-- Continuation of a digit run after at least one digit: accepts further
digits and, per PEP 515, a single underscore between two digits (an
underscore not followed by a digit is left unconsumed, making the literal
invalid, exactly as `float("1_")` or `float("1__0")` raise). -/
def takeDigitsRest : List Char → List Nat × List Char
  | '_' :: c :: cs =>
    match decDigitVal c with
    | some d =>
      let r := takeDigitsRest cs
      (d :: r.1, r.2)
    | none => ([], '_' :: c :: cs)
  | c :: cs =>
    match decDigitVal c with
    | some d =>
      let r := takeDigitsRest cs
      (d :: r.1, r.2)
    | none => ([], c :: cs)
  | [] => ([], [])

/-- Leading digit run of a character list, as numeric values, with the
rest of the list (a leading underscore is not part of a run). -/
def takeDigits : List Char → List Nat × List Char
  | c :: cs =>
    match decDigitVal c with
    | some d =>
      let r := takeDigitsRest cs
      (d :: r.1, r.2)
    | none => ([], c :: cs)
  | [] => ([], [])

/-- Digit list to natural number, most significant first. -/
def natOfDigits (ds : List Nat) : Nat := ds.foldl (fun a d => a * 10 + d) 0

/-- Apply a decimal exponent of the given sign to an exact fraction
`num / den` (scaling numerator or denominator by a power of ten). -/
def expApply (num den : Nat) (neg : Bool) (n : Nat) : Nat × Nat :=
  if neg then (num, den * 10 ^ n) else (num * 10 ^ n, den)

/-- Parse the optional exponent part after the mantissa; the whole rest of
the input must be consumed.  The mantissa is the fraction `num / den`. -/
def parseAfterMantissa (num den : Nat) : List Char → Option (Nat × Nat)
  | [] => some (num, den)
  | e :: r =>
    if e == 'e' || e == 'E' then
      let sr : Bool × List Char :=
        match r with
        | '+' :: t => (false, t)
        | '-' :: t => (true, t)
        | t => (false, t)
      let dr := takeDigits sr.2
      if dr.1.isEmpty || !dr.2.isEmpty then none
      else some (expApply num den sr.1 (natOfDigits dr.1))
    else none

/-- Parse an unsigned decimal literal (digits, optional fraction, optional
exponent), as accepted by `float`, into an exact fraction. -/
def parseUnsigned (l : List Char) : Option (Nat × Nat) :=
  let d1 := takeDigits l
  match d1.2 with
  | '.' :: r2 =>
    let d2 := takeDigits r2
    if d1.1.isEmpty && d2.1.isEmpty then none
    else parseAfterMantissa (natOfDigits (d1.1 ++ d2.1)) (10 ^ d2.1.length) d2.2
  | _ => if d1.1.isEmpty then none else parseAfterMantissa (natOfDigits d1.1) 1 d1.2

/-- Case-insensitive match of the whole input against a lowercase word. -/
def ciMatch (l : List Char) (pat : List Char) : Bool := l.map pyLowerChar == pat

/-- `float(str)` on a character list: `none` models the `ValueError` raised
for a non-numeric string. -/
def pyFloatOfChars (l : List Char) : Option PyFloat :=
  let sr : Bool × List Char :=
    match l with
    | '+' :: t => (false, t)
    | '-' :: t => (true, t)
    | t => (false, t)
  if ciMatch sr.2 ['i', 'n', 'f'] ||
     ciMatch sr.2 ['i', 'n', 'f', 'i', 'n', 'i', 't', 'y'] then
    some (if sr.1 then .ninf else .pinf)
  else if ciMatch sr.2 ['n', 'a', 'n'] then some .nan
  else
    match parseUnsigned sr.2 with
    | some nd => some (.finite (if sr.1 then -(nd.1 : Int) else (nd.1 : Int)) nd.2)
    | none => none

/-- `float(str)`. -/
def pyFloat (s : String) : Option PyFloat := pyFloatOfChars s.data

/-- The comparison `float(v) >= 0` of the source, on a parsed value.
`nan >= 0` is `False` and `inf >= 0` is `True` in Python.  For a finite
literal the comparison acts on the IEEE double the exact value rounds to:
a nonnegative value always gives `True`; a negative value gives `True`
exactly when its magnitude is at most `2 ^ (-1075)` (half the smallest
subnormal), in which case round-to-nearest, ties-to-even takes it to
`-0.0` and `-0.0 >= 0` is `True` — e.g. `float("-1e-400") >= 0` holds.
Any other negative value rounds to a negative double (or `-inf`), and
the comparison is `False`.  The denominator is positive by construction,
so the test is on the numerator; the magnitude test
`|num| / den ≤ 2 ^ (-1075)` is written `num.natAbs <<< 1075 ≤ den`,
where `a <<< n` is `a * 2 ^ n` (see `shiftLeft_eq_mul_pow`). -/
def pyFloatNonneg : PyFloat → Bool
  | .finite num den => decide (0 ≤ num) || decide (num.natAbs <<< 1075 ≤ den)
  | .pinf => true
  | .ninf => false
  | .nan => false

/-- The shift used by `pyFloatNonneg` is multiplication by a power of
two. -/
theorem shiftLeft_eq_mul_pow (a n : Nat) : a <<< n = a * 2 ^ n :=
  Nat.shiftLeft_eq a n

/-! ## UTF-8 decoding (`bytes.decode('utf-8')`, strict) -/

/-- Strict UTF-8 decoder: rejects continuation errors, overlong encodings,
surrogates and code points above `U+10FFFF`, exactly as Python's
`bytes.decode('utf-8')`. -/
def utf8Decode : List Nat → Option (List Char)
  | [] => some []
  | b :: bs =>
    if b < 0x80 then
      (utf8Decode bs).map (fun cs => Char.ofNat b :: cs)
    else if b < 0xC2 then none
    else if b < 0xE0 then
      match bs with
      | c1 :: bs' =>
        if 0x80 ≤ c1 ∧ c1 < 0xC0 then
          (utf8Decode bs').map (fun cs => Char.ofNat ((b - 0xC0) * 0x40 + (c1 - 0x80)) :: cs)
        else none
      | [] => none
    else if b < 0xF0 then
      match bs with
      | c1 :: c2 :: bs' =>
        if (if b == 0xE0 then 0xA0 else 0x80) ≤ c1 ∧
           c1 < (if b == 0xED then 0xA0 else 0xC0) ∧
           0x80 ≤ c2 ∧ c2 < 0xC0 then
          (utf8Decode bs').map (fun cs =>
            Char.ofNat ((b - 0xE0) * 0x1000 + (c1 - 0x80) * 0x40 + (c2 - 0x80)) :: cs)
        else none
      | _ => none
    else if b < 0xF5 then
      match bs with
      | c1 :: c2 :: c3 :: bs' =>
        if (if b == 0xF0 then 0x90 else 0x80) ≤ c1 ∧
           c1 < (if b == 0xF4 then 0x90 else 0xC0) ∧
           0x80 ≤ c2 ∧ c2 < 0xC0 ∧ 0x80 ≤ c3 ∧ c3 < 0xC0 then
          (utf8Decode bs').map (fun cs =>
            Char.ofNat ((b - 0xF0) * 0x40000 + (c1 - 0x80) * 0x1000 +
              (c2 - 0x80) * 0x40 + (c3 - 0x80)) :: cs)
        else none
      | _ => none
    else none

/-- `bytes.decode('utf-8')` producing a string. -/
def utf8DecodeStr (b : List Nat) : Option String := (utf8Decode b).map String.mk

/-- Encode an ASCII string as bytes (used to build concrete payloads in
theorem statements; inputs are always ASCII so this agrees with UTF-8). -/
def asciiEnc (s : String) : List Nat := s.data.map Char.toNat

/-! ## Label validation (`process_dataset.py` lines 53–62) -/

/-- What the check of one label line raises: `badFormat` is the explicit
`raise ValueError(f"Invalid label format in {filename}: {line}")` (whose
message contains the line), `floatErr tok` is the `ValueError` raised by
`float(tok)` itself (whose message names only the offending token). -/
inductive LineErr
  | badFormat
  | floatErr (tok : String)
deriving DecidableEq, Repr

/-- Result of evaluating `all(float(v) >= 0 for v in values[1:])`:
`ok b` when the generator runs without exception (short-circuiting on the
first `False`), `err tok` when `float(tok)` raises. -/
inductive ScanRes
  | ok (b : Bool)
  | err (tok : String)
deriving DecidableEq, Repr

/-- Left-to-right evaluation of `all(float(v) >= 0 for v in vs)`. -/
def scanNonneg : List String → ScanRes
  | [] => .ok true
  | v :: vs =>
    match pyFloat v with
    | none => .err v
    | some f => if pyFloatNonneg f then scanNonneg vs else .ok false

/-- One iteration of the label loop body:
`values = line.strip().split()`;
`if len(values) != 5 or not all(float(v) >= 0 for v in values[1:]): raise`.
`none` means the line passes. -/
def checkLine (line : String) : Option LineErr :=
  let values := pySplit (pyStrip line)
  if values.length ≠ 5 then some .badFormat
  else
    match scanNonneg (values.drop 1) with
    | .ok true => none
    | .ok false => some .badFormat
    | .err tok => some (.floatErr tok)

/-- Outcome of label validation for one entry; constructors record which
exception reached the `except` handler (`badLine` carries the line embedded
in the raised message, `floatErr` only the token `float` choked on,
`decodeErr` a `UnicodeDecodeError`). `valid` is the no-exception path. -/
inductive LabelResult
  | valid
  | decodeErr
  | badLine (line : String)
  | floatErr (tok : String)
deriving DecidableEq, Repr

/-- The `for line in label_content` loop: stops at the first line whose
check raises. -/
def checkLines : List String → LabelResult
  | [] => .valid
  | l :: ls =>
    match checkLine l with
    | none => checkLines ls
    | some .badFormat => .badLine l
    | some (.floatErr t) => .floatErr t

/-- Label validation after UTF-8 decoding:
`label_content = text.strip().splitlines()` then the line loop. -/
def validateLabelText (t : String) : LabelResult :=
  checkLines (pySplitlines (pyStrip t))

/-- Full label validation of a payload:
`file_content.decode('utf-8').strip().splitlines()` plus the line loop,
with every exception caught by the entry-level `except`. -/
def validateLabel (b : List Nat) : LabelResult :=
  match utf8DecodeStr b with
  | none => .decodeErr
  | some t => validateLabelText t

/-- A field is acceptable when it parses as a float and the parsed value
passes the `float(v) >= 0` comparison (see `pyFloatNonneg` for the
underflow-to-`-0.0` case). -/
def nonnegField (v : String) : Bool :=
  match pyFloat v with
  | some f => pyFloatNonneg f
  | none => false

/-- Spec-side well-formedness of one label line (proved equivalent to
`checkLine` returning `none`). -/
def wellFormedLine (l : String) : Bool :=
  let vs := pySplit (pyStrip l)
  vs.length == 5 && (vs.drop 1).all nonnegField

/-! ## Entry classification -/

/-- `filename.lower().endswith(('.jpg', '.jpeg', '.png'))`
(line 44 of `process_dataset.py`). -/
def isImageName (f : String) : Bool :=
  strEndsWith (pyLower f) ".jpg" || strEndsWith (pyLower f) ".jpeg" ||
  strEndsWith (pyLower f) ".png"

/-- `filename.lower().endswith('.txt')` (line 53). -/
def isLabelName (f : String) : Bool := strEndsWith (pyLower f) ".txt"

/-- `obj['Key'].endswith(('.jpg', '.jpeg', '.png'))` — the stats counter's
image test (line 121), with no `.lower()`. -/
def statsIsImage (k : String) : Bool :=
  strEndsWith k ".jpg" || strEndsWith k ".jpeg" || strEndsWith k ".png"

/-- `obj['Key'].endswith('.txt')` — the stats counter's label test
(line 122), with no `.lower()`. -/
def statsIsLabel (k : String) : Bool := strEndsWith k ".txt"

/-! ## Object store -/

/-- A byte payload. -/
abbrev ByteSeq := List Nat

/-- The bucket: keys with payloads, unique keys, overwrite-on-put. -/
abbrev Store := List (String × ByteSeq)

/-- `get_object`: `none` models the `NoSuchKey` error. -/
def getObject : Store → String → Option ByteSeq
  | [], _ => none
  | e :: s, k => if e.1 == k then some e.2 else getObject s k

/-- `put_object` with overwrite semantics: an existing key is replaced in
place, a new key is appended. -/
def putObject (s : Store) (k : String) (v : ByteSeq) : Store :=
  if s.any (fun e => e.1 == k) then
    s.map (fun e => if e.1 == k then (k, v) else e)
  else s ++ [(k, v)]

/-- `list_objects_v2(Prefix=pfx)`: the objects whose key starts with the
given string (`MaxKeys` is applied by the callers with `List.take`). -/
def listObjects (s : Store) (pfx : String) : Store :=
  s.filter (fun e => strStartsWith e.1 pfx)

/-- `target_key = f"Darts.v2i.yolov11/{filename}"` (line 36). -/
def targetKey (filename : String) : String := "Darts.v2i.yolov11/" ++ filename

/-! ## The pipeline (`process_dataset.py`) -/

/-- The exception that escaped to the `except` around the whole unzip body:
the archive object missing, the blob not a zip, or a `put_object` failure
(which is not guarded per entry and so unwinds out of the loop). -/
inductive UnzipErr
  | noSuchKey
  | badZip
  | putErr
deriving DecidableEq, Repr

/-- Per-entry record: which validations ran (by suffix classification) and
what they reported. `imageCheck` is the oracle verdict for image entries,
`labelCheck` the label validation result for `.txt` entries. -/
structure EntryOutcome where
  name : String
  imageCheck : Option Bool
  labelCheck : Option LabelResult
deriving DecidableEq, Repr

/-- The `for filename in z.namelist()` loop: put (unguarded — a failure
aborts the remaining entries), then image validation (guarded), then label
validation (guarded). Returns the store, the outcomes of the entries
actually processed, and the escaped exception if any. -/
def processEntries (fails : String → Bool) (imgOK : ByteSeq → Bool) :
    List (String × ByteSeq) → Store → Store × List EntryOutcome × Option UnzipErr
  | [], s => (s, [], none)
  | (n, p) :: rest, s =>
    if fails (targetKey n) then (s, [], some .putErr)
    else
      let s' := putObject s (targetKey n) p
      let oc : EntryOutcome :=
        ⟨n, if isImageName n then some (imgOK p) else none,
            if isLabelName n then some (validateLabel p) else none⟩
      let r := processEntries fails imgOK rest s'
      (r.1, oc :: r.2.1, r.2.2)

/-- `unzip_s3_dataset`: fetch the archive blob, open it, process every
entry; any exception is caught by the function-level handler, which logs
it and returns normally. -/
def unzip_s3_dataset (fails : String → Bool) (imgOK : ByteSeq → Bool)
    (parseZip : ByteSeq → Option (List (String × ByteSeq))) (s : Store) :
    Store × List EntryOutcome × Option UnzipErr :=
  match getObject s "Darts.v2i.yolov11.zip" with
  | none => (s, [], some .noSuchKey)
  | some blob =>
    match parseZip blob with
    | none => (s, [], some .badZip)
    | some entries => processEntries fails imgOK entries s

/-- The six expected subpaths (lines 78–85). -/
def expected_dirs : List String :=
  ["train/images", "train/labels", "valid/images", "valid/labels",
   "test/images", "test/labels"]

/-- `verify_dataset_structure`: for each expected subpath, one listing with
`MaxKeys=1` under `Darts.v2i.yolov11/<dir>/`; `true` iff the response has
a `Contents` entry. Purely observational, never raises. -/
def verify_dataset_structure (s : Store) : List (String × Bool) :=
  expected_dirs.map (fun d =>
    (d, !((listObjects s ("Darts.v2i.yolov11/" ++ d ++ "/")).take 1).isEmpty))

/-- The aggregate numbers logged by `list_dataset_stats`. -/
structure DatasetStats where
  total_files : Nat
  total_size : Nat
  image_count : Nat
  label_count : Nat
deriving DecidableEq, Repr

/-- `list_dataset_stats`: one listing under `Darts.v2i.yolov11` (no
trailing slash), `none` for the `No files found` branch; counts use the
case-sensitive suffix tests of lines 121–122. -/
def list_dataset_stats (s : Store) : Option DatasetStats :=
  let contents := listObjects s "Darts.v2i.yolov11"
  if contents.isEmpty then none
  else some
    { total_files := contents.length
      total_size := (contents.map (fun e => e.2.length)).sum
      image_count := (contents.filter (fun e => statsIsImage e.1)).length
      label_count := (contents.filter (fun e => statsIsLabel e.1)).length }

/-- `check_aws_connection` of `manage_dataset.py`: lists the archive key
and returns `True` whether or not anything was found (the listing result
is only logged); `False` is returned only when the client raises, which
the pure store model cannot do. -/
def check_aws_connection (s : Store) : Bool :=
  let _found := listObjects s "Darts.v2i.yolov11.zip"
  true

/-- What `__main__` of `process_dataset.py` produces: the store after the
unzip pass, the logged unzip error if any, the per-entry outcomes, the
structure report, the stats report, and the process exit status. -/
structure RunReport where
  store : Store
  unzipError : Option UnzipErr
  outcomes : List EntryOutcome
  structureReport : List (String × Bool)
  stats : Option DatasetStats
  exitCode : Nat
deriving DecidableEq, Repr

/-- `__main__` (lines 129–143): `unzip_s3_dataset()` (which swallows its
exceptions), then `verify_dataset_structure()`, then `list_dataset_stats()`;
no `sys.exit`, so the process ends with status 0. -/
def process_dataset_main (fails : String → Bool) (imgOK : ByteSeq → Bool)
    (parseZip : ByteSeq → Option (List (String × ByteSeq))) (s : Store) : RunReport :=
  let r := unzip_s3_dataset fails imgOK parseZip s
  { store := r.1
    unzipError := r.2.2
    outcomes := r.2.1
    structureReport := verify_dataset_structure r.1
    stats := list_dataset_stats r.1
    exitCode := 0 }

/-- A put oracle under which no write fails. -/
def noFail : String → Bool := fun _ => false

/-! ## Lemmas about label validation -/

/-- `all(float(v) >= 0 for v in vs)` evaluates to `True` without raising
exactly when every field parses as a nonnegative number. -/
theorem scanNonneg_ok_true_iff (vs : List String) :
    scanNonneg vs = .ok true ↔ vs.all nonnegField = true := by
  induction vs with
  | nil => simp [scanNonneg]
  | cons v vs ih =>
    cases h : pyFloat v with
    | none => simp [scanNonneg, h, nonnegField]
    | some f =>
      by_cases hf : pyFloatNonneg f = true
      · simp [scanNonneg, h, nonnegField, hf, ih]
      · simp [scanNonneg, h, nonnegField, hf]

/-- The per-line check raises no exception exactly when the line is well
formed in the sense of the spec. -/
theorem checkLine_none_iff (l : String) :
    checkLine l = none ↔ wellFormedLine l = true := by
  have key := scanNonneg_ok_true_iff ((pySplit (pyStrip l)).drop 1)
  simp only [checkLine, wellFormedLine]
  by_cases h5 : (pySplit (pyStrip l)).length = 5
  · rw [if_neg (by simp [h5]),
      show ((pySplit (pyStrip l)).length == 5) = true by simp [h5],
      Bool.true_and, ← key]
    cases hs : scanNonneg ((pySplit (pyStrip l)).drop 1) with
    | ok b => cases b <;> simp
    | err tok => simp
  · rw [if_pos h5]
    simp [h5]

/-- The line loop succeeds exactly when every line passes the check. -/
theorem checkLines_valid_iff (ls : List String) :
    checkLines ls = .valid ↔ ∀ l ∈ ls, checkLine l = none := by
  induction ls with
  | nil => simp [checkLines]
  | cons l ls ih =>
    cases h : checkLine l with
    | none => simp [checkLines, h, ih]
    | some e => cases e <;> simp [checkLines, h]

/-- Lines that pass the check are skipped by the loop. -/
theorem checkLines_append (pre ls : List String)
    (h : ∀ l ∈ pre, checkLine l = none) :
    checkLines (pre ++ ls) = checkLines ls := by
  induction pre with
  | nil => rfl
  | cons a pre ih =>
    have ha := h a (by simp)
    rw [List.cons_append, checkLines, ha]
    exact ih fun l hl => h l (by simp [hl])

/-! ## Lemmas about stripping -/

/-- Dropping leading whitespace absorbs a whitespace head. -/
theorem stripChars_cons_ws (c : Char) (l : List Char) (hc : pyIsSpace c = true) :
    stripChars (c :: l) = stripChars l := by
  rw [stripChars, stripChars, List.dropWhile_cons, if_pos hc]

/-- `dropWhile` across an appended final element. -/
theorem dropWhile_append_one (p : Char → Bool) (l : List Char) (c : Char) :
    (l ++ [c]).dropWhile p =
      if l.dropWhile p = [] then [c].dropWhile p else l.dropWhile p ++ [c] := by
  induction l with
  | nil => simp
  | cons a l ih =>
    by_cases ha : p a = true
    · simpa [List.dropWhile_cons, ha] using ih
    · simp [List.dropWhile_cons, ha]

/-- Dropping trailing whitespace absorbs a whitespace last element. -/
theorem stripChars_append_ws (c : Char) (l : List Char) (hc : pyIsSpace c = true) :
    stripChars (l ++ [c]) = stripChars l := by
  rw [stripChars, stripChars, dropWhile_append_one]
  by_cases h : l.dropWhile pyIsSpace = []
  · rw [if_pos h, h]
    simp [List.dropWhile_cons, hc]
  · rw [if_neg h, List.reverse_append]
    simp [List.dropWhile_cons, hc]

/-- Any all-whitespace prefix is absorbed by `strip`. -/
theorem stripChars_ws_append (w l : List Char) (hw : ∀ c ∈ w, pyIsSpace c = true) :
    stripChars (w ++ l) = stripChars l := by
  induction w with
  | nil => rfl
  | cons c w ih =>
    rw [List.cons_append, stripChars_cons_ws c _ (hw c (by simp))]
    exact ih fun c' hc' => hw c' (by simp [hc'])

/-- Any all-whitespace suffix is absorbed by `strip`. -/
theorem stripChars_append_ws_all (w l : List Char) (hw : ∀ c ∈ w, pyIsSpace c = true) :
    stripChars (l ++ w) = stripChars l := by
  induction w generalizing l with
  | nil => rw [List.append_nil]
  | cons c w ih =>
    have hsplit : l ++ c :: w = (l ++ [c]) ++ w := by simp
    rw [hsplit, ih (l ++ [c]) fun c' hc' => hw c' (by simp [hc']),
      stripChars_append_ws c l (hw c (by simp))]

/-- A payload padded on the left with whitespace strips to the same text. -/
theorem pyStrip_ws_left (w t : String) (hw : ∀ c ∈ w.data, pyIsSpace c = true) :
    pyStrip (w ++ t) = pyStrip t := by
  rw [pyStrip, pyStrip, String.data_append, stripChars_ws_append _ _ hw]

/-- A payload padded on the right with whitespace strips to the same
text. -/
theorem pyStrip_ws_right (w t : String) (hw : ∀ c ∈ w.data, pyIsSpace c = true) :
    pyStrip (t ++ w) = pyStrip t := by
  rw [pyStrip, pyStrip, String.data_append, stripChars_append_ws_all _ _ hw]

/-! ## Claim C2 -/

/-- C2: for every label entry whose payload is valid UTF-8 and in which
every line (of the stripped text, as the code computes them) has exactly 5
whitespace-separated fields with the 2nd–5th fields each parsing as a real
number that compares `>= 0` as a float, validation produces a Valid
outcome for that entry. -/
theorem C2_wellformed_label_valid (b : ByteSeq) (t : String)
    (hdec : utf8DecodeStr b = some t)
    (hwf : ∀ l ∈ pySplitlines (pyStrip t), wellFormedLine l = true) :
    validateLabel b = .valid := by
  simp only [validateLabel, hdec, validateLabelText]
  exact (checkLines_valid_iff _).mpr fun l hl => (checkLine_none_iff l).mpr (hwf l hl)

/-- Witness for C2 at the spec's own scenario line `"0 0.5 0.5 0.2 0.2"`. -/
theorem C2_wellformed_label_valid_witness :
    validateLabel (asciiEnc "0 0.5 0.5 0.2 0.2") = .valid :=
  C2_wellformed_label_valid _ "0 0.5 0.5 0.2 0.2" (by decide) (by decide)

/-! ## Claim C10 -/

/-- C10: the class-index field of a label line is never parsed: the check
of a line depends only on the field count and on the 2nd and later fields,
and the line `"abc 0 0 0 0"` with a non-numeric first field is accepted. -/
theorem C10_class_index_unparsed :
    (∀ line line' : String,
      (pySplit (pyStrip line)).length = (pySplit (pyStrip line')).length →
      (pySplit (pyStrip line)).drop 1 = (pySplit (pyStrip line')).drop 1 →
      checkLine line = checkLine line') ∧
    validateLabelText "abc 0 0 0 0" = .valid := by
  constructor
  · intro line line' hlen hdrop
    simp only [checkLine]
    rw [hlen, hdrop]
  · decide

/-- Witness for C10: the check treats `"abc 0 0 0 0"` exactly like the
all-numeric `"0 0 0 0 0"`, and the latter passes. -/
theorem C10_class_index_unparsed_witness :
    checkLine "abc 0 0 0 0" = checkLine "0 0 0 0 0" ∧
    checkLine "0 0 0 0 0" = none :=
  ⟨C10_class_index_unparsed.1 _ _ (by decide) (by decide), by decide⟩

/-! ## Claim C6 -/

/-- Counterexample to C6: the payload `"0 0 0 0 0\n\n0 0 0 0 0"` has only
well-formed non-empty lines, yet validation is Invalid — the interior blank
line survives the outer `strip`, is split into 0 fields, and raises. -/
theorem C6_counterexample :
    wellFormedLine "0 0 0 0 0" = true ∧
    validateLabel (asciiEnc "0 0 0 0 0\n\n0 0 0 0 0") = .badLine "" ∧
    validateLabel (asciiEnc "0 0 0 0 0\n\n0 0 0 0 0") ≠ .valid := by decide

/-- C6 amended: label validation checks every line of the outer-stripped
payload — interior blank or whitespace-only lines are themselves checked
(0 fields ≠ 5, so they make the entry Invalid), and only whitespace at the
very start and end of the payload is ignored: the outcome is Valid iff all
lines of the stripped payload pass, and padding the payload with any
string of whitespace characters (the full Python whitespace set) on either
end never changes the outcome. -/
theorem C6_amended (t : String) :
    (validateLabelText t = .valid ↔
      ∀ l ∈ pySplitlines (pyStrip t), checkLine l = none) ∧
    (∀ w : String, (∀ c ∈ w.data, pyIsSpace c = true) →
      validateLabelText (w ++ t) = validateLabelText t ∧
      validateLabelText (t ++ w) = validateLabelText t) := by
  refine ⟨?_, ?_⟩
  · rw [validateLabelText]
    exact checkLines_valid_iff _
  · intro w hw
    exact ⟨by rw [validateLabelText, validateLabelText, pyStrip_ws_left w t hw],
           by rw [validateLabelText, validateLabelText, pyStrip_ws_right w t hw]⟩

/-- Witness for C6 amended at the line `"0 0 0 0 0"`: trailing
`"\x1f\n"` padding (a unit separator, whitespace for `strip`, plus a
newline) is tolerated, and the all-pass direction of the iff yields
Valid. -/
theorem C6_amended_witness :
    validateLabelText ("0 0 0 0 0" ++ "\x1f\n") = validateLabelText "0 0 0 0 0" ∧
    validateLabelText "0 0 0 0 0" = .valid :=
  ⟨((C6_amended "0 0 0 0 0").2 "\x1f\n" (by decide)).2,
   (C6_amended "0 0 0 0 0").1.mpr (by decide)⟩

/-! ## Claim C1 -/

/-- A run of entries none of whose puts fail is processed to the end: every
entry gets an outcome and no exception escapes the loop — label validity
never stops the loop, because the label `try` is per entry. -/
theorem processEntries_ok (fails : String → Bool) (imgOK : ByteSeq → Bool)
    (entries : List (String × ByteSeq)) (s : Store)
    (h : ∀ e ∈ entries, fails (targetKey e.1) = false) :
    (processEntries fails imgOK entries s).2.1.length = entries.length ∧
    (processEntries fails imgOK entries s).2.2 = none := by
  induction entries generalizing s with
  | nil => exact ⟨rfl, rfl⟩
  | cons e rest ih =>
    obtain ⟨n, p⟩ := e
    have hn : fails (targetKey n) = false := h (n, p) (by simp)
    have ihr := ih (putObject s (targetKey n) p) fun e he => h e (by simp [he])
    simp only [processEntries, hn, Bool.false_eq_true, if_false, List.length_cons]
    exact ⟨by rw [ihr.1], ihr.2⟩

/-- Counterexample to C1: for the payload `"0 x 0 0 0"` the 2nd field is
non-numeric, so the entry is Invalid — but the detail is the `ValueError`
raised by `float("x")`, which names only the token `"x"`; the raised
message does not contain the violating line (only the explicit
`raise ValueError(... {line})` branch, modelled by `badLine`, does). -/
theorem C1_counterexample :
    utf8DecodeStr (asciiEnc "0 x 0 0 0") = some "0 x 0 0 0" ∧
    validateLabel (asciiEnc "0 x 0 0 0") = .floatErr "x" ∧
    validateLabel (asciiEnc "0 x 0 0 0") ≠ .badLine "0 x 0 0 0" := by decide

/-- C1 amended: for every label entry that decodes as UTF-8 and whose
computed lines contain a violating line — a wrong field count, or a
2nd–5th field that is non-numeric or whose parsed double compares below
zero (a negative literal small enough to underflow to `-0.0` passes the
`>= 0` test and is no violation) — validation is Invalid and the
remaining entries are still processed; the detail is the violating line
itself when the first violation is the field count or the below-zero
comparison (the explicit raise), but when the first violation is a
non-numeric 2nd–5th field the detail is `float`'s own error naming only
the offending token. -/
theorem C1_amended :
    (∀ (b : ByteSeq) (t : String) (pre post : List String) (l : String),
      utf8DecodeStr b = some t →
      pySplitlines (pyStrip t) = pre ++ l :: post →
      (∀ l' ∈ pre, checkLine l' = none) →
      checkLine l ≠ none →
      validateLabel b ≠ .valid ∧
      (checkLine l = some .badFormat → validateLabel b = .badLine l) ∧
      (∀ tok, checkLine l = some (.floatErr tok) → validateLabel b = .floatErr tok)) ∧
    (∀ (fails : String → Bool) (imgOK : ByteSeq → Bool)
       (entries : List (String × ByteSeq)) (s : Store),
      (∀ e ∈ entries, fails (targetKey e.1) = false) →
      (processEntries fails imgOK entries s).2.1.length = entries.length ∧
      (processEntries fails imgOK entries s).2.2 = none) := by
  constructor
  · intro b t pre post l hdec hsplit hpre hl
    have hv : validateLabel b = checkLines (l :: post) := by
      simp only [validateLabel, hdec, validateLabelText, hsplit]
      exact checkLines_append pre _ hpre
    refine ⟨?_, ?_, ?_⟩
    · rw [hv]
      cases hcl : checkLine l with
      | none => exact absurd hcl hl
      | some e => cases e <;> simp [checkLines, hcl]
    · intro hbf
      rw [hv]
      simp [checkLines, hbf]
    · intro tok hfe
      rw [hv]
      simp [checkLines, hfe]
  · exact processEntries_ok

/-- Witness for C1 amended: the spec scenario line `"1 -0.1 0.2 0.3 0.4"`
(negative 2nd field) yields the explicit raise carrying the line, and a
two-entry archive with an arbitrary bad label still yields two outcomes. -/
theorem C1_amended_witness :
    validateLabel (asciiEnc "1 -0.1 0.2 0.3 0.4") = .badLine "1 -0.1 0.2 0.3 0.4" ∧
    (processEntries noFail (fun _ => true)
      [("a.txt", asciiEnc "bad"), ("b.jpg", [1])] []).2.1.length = 2 :=
  ⟨(C1_amended.1 (asciiEnc "1 -0.1 0.2 0.3 0.4") "1 -0.1 0.2 0.3 0.4" [] []
      "1 -0.1 0.2 0.3 0.4" (by decide) (by decide) (by simp) (by decide)).2.1
      (by decide),
   (C1_amended.2 noFail (fun _ => true)
      [("a.txt", asciiEnc "bad"), ("b.jpg", [1])] [] (by decide)).1⟩

/-! ## Lemmas about the object store -/

/-- The target-key map is injective in the entry name. -/
theorem targetKey_inj {a b : String} (h : targetKey a = targetKey b) : a = b := by
  have hd := congrArg String.data h
  rw [targetKey, targetKey, String.data_append, String.data_append] at hd
  exact String.ext (List.append_cancel_left hd)

/-- Reading a key after an in-place replacement of that key. -/
theorem getObject_map_replace_self (s : Store) (k : String) (v : ByteSeq)
    (h : s.any (fun e => e.1 == k) = true) :
    getObject (s.map (fun e => if e.1 == k then (k, v) else e)) k = some v := by
  induction s with
  | nil => simp at h
  | cons e s ih =>
    by_cases he : (e.1 == k) = true
    · simp [getObject, he]
    · have h' : s.any (fun e => e.1 == k) = true := by simpa [he] using h
      simpa [getObject, he] using ih h'

/-- Reading a key just appended to a store that lacked it. -/
theorem getObject_append_self (s : Store) (k : String) (v : ByteSeq)
    (h : s.any (fun e => e.1 == k) = false) :
    getObject (s ++ [(k, v)]) k = some v := by
  induction s with
  | nil => simp [getObject]
  | cons e s ih =>
    rw [List.any_cons, Bool.or_eq_false_iff] at h
    simp [getObject, h.1, ih h.2]

/-- `get` after `put` of the same key returns the new payload. -/
theorem getObject_putObject_self (s : Store) (k : String) (v : ByteSeq) :
    getObject (putObject s k v) k = some v := by
  rw [putObject]
  cases h : s.any (fun e => e.1 == k) with
  | true =>
    rw [if_pos rfl]
    exact getObject_map_replace_self s k v h
  | false =>
    rw [if_neg (by simp)]
    exact getObject_append_self s k v h

/-- In-place replacement of one key does not change reads of another. -/
theorem getObject_map_replace_ne (s : Store) (k k' : String) (v : ByteSeq)
    (h : (k == k') = false) :
    getObject (s.map (fun e => if e.1 == k then (k, v) else e)) k' = getObject s k' := by
  induction s with
  | nil => rfl
  | cons e s ih =>
    rw [List.map_cons]
    by_cases he : (e.1 == k) = true
    · have hek : e.1 = k := by simpa using he
      have h1 : ¬ (((k, v) : String × ByteSeq).1 == k') = true := by simp [h]
      have h2 : ¬ (e.1 == k') = true := by rw [hek]; simp [h]
      rw [if_pos he, getObject, if_neg h1, getObject, if_neg h2, ih]
    · rw [if_neg he, getObject, getObject, ih]

/-- Appending one key does not change reads of another. -/
theorem getObject_append_ne (s : Store) (k k' : String) (v : ByteSeq)
    (h : (k == k') = false) :
    getObject (s ++ [(k, v)]) k' = getObject s k' := by
  induction s with
  | nil => simp [getObject, h]
  | cons e s ih => simp [getObject, ih]

/-- `get` after `put` of a different key is unchanged. -/
theorem getObject_putObject_ne (s : Store) (k k' : String) (v : ByteSeq)
    (h : (k == k') = false) :
    getObject (putObject s k v) k' = getObject s k' := by
  rw [putObject]
  cases ha : s.any (fun e => e.1 == k) with
  | true =>
    rw [if_pos rfl]
    exact getObject_map_replace_ne s k k' v h
  | false =>
    rw [if_neg (by simp)]
    exact getObject_append_ne s k k' v h

/-- A store read yielding a payload means the key is present. -/
theorem any_of_getObject_some (s : Store) (k : String) (v : ByteSeq)
    (hg : getObject s k = some v) : s.any (fun e => e.1 == k) = true := by
  induction s with
  | nil => cases hg
  | cons e s ih =>
    by_cases he : (e.1 == k) = true
    · simp [he]
    · rw [getObject, if_neg (by simp [he])] at hg
      simp [he, ih hg]

/-- Replacement is the identity when no entry has the key. -/
theorem map_replace_id (s : Store) (k : String) (v : ByteSeq)
    (h : ∀ e ∈ s, (e.1 == k) = false) :
    s.map (fun e => if e.1 == k then (k, v) else e) = s := by
  induction s with
  | nil => rfl
  | cons e s ih =>
    rw [List.map_cons, if_neg (by simp [h e (by simp)]),
      ih fun e' he' => h e' (by simp [he'])]

/-- Overwriting a key with the payload it already holds is a no-op (for a
store with unique keys). -/
theorem putObject_eq_self (s : Store) (k : String) (v : ByteSeq)
    (hnd : (s.map Prod.fst).Nodup) (hg : getObject s k = some v) :
    putObject s k v = s := by
  rw [putObject, if_pos (any_of_getObject_some s k v hg)]
  induction s with
  | nil => rfl
  | cons e s ih =>
    rw [List.map_cons] at hnd
    rcases List.nodup_cons.mp hnd with ⟨hnotin, hndtl⟩
    by_cases he : (e.1 == k) = true
    · have hek : e.1 = k := by simpa using he
      have hev : e.2 = v := by
        rw [getObject, if_pos he] at hg
        exact Option.some.inj hg
      rw [List.map_cons, if_pos he]
      have hid : s.map (fun e => if e.1 == k then (k, v) else e) = s := by
        refine map_replace_id s k v fun e' he' => ?_
        by_contra hbc
        rw [Bool.not_eq_false] at hbc
        have : e'.1 = k := by simpa using hbc
        exact hnotin (hek ▸ this ▸ List.mem_map_of_mem Prod.fst he')
      rw [hid, ← hek, ← hev]
    · rw [getObject, if_neg (by simp [he])] at hg
      rw [List.map_cons, if_neg (by simp [he]), ih hndtl hg]

/-- Replacement does not change the key sequence. -/
theorem keys_map_replace (s : Store) (k : String) (v : ByteSeq) :
    (s.map (fun e => if e.1 == k then (k, v) else e)).map Prod.fst = s.map Prod.fst := by
  induction s with
  | nil => rfl
  | cons e s ih =>
    rw [List.map_cons, List.map_cons, List.map_cons]
    by_cases he : (e.1 == k) = true
    · have hek : e.1 = k := by simpa using he
      rw [if_pos he, ih, hek]
    · rw [if_neg he, ih]

/-- `put` preserves uniqueness of keys. -/
theorem putObject_keys_nodup (s : Store) (k : String) (v : ByteSeq)
    (h : (s.map Prod.fst).Nodup) : ((putObject s k v).map Prod.fst).Nodup := by
  rw [putObject]
  cases ha : s.any (fun e => e.1 == k) with
  | true =>
    rw [if_pos rfl, keys_map_replace]
    exact h
  | false =>
    rw [if_neg (by simp), List.map_append, List.nodup_append]
    have hk : k ∉ s.map Prod.fst := by
      intro hmem
      rcases List.mem_map.mp hmem with ⟨e, he, hek⟩
      rw [List.any_eq_true.mpr ⟨e, he, by simp [hek]⟩] at ha
      cases ha
    refine ⟨h, by simp, ?_⟩
    intro a has hak
    have hk' : a = k := by simpa using hak
    exact hk (hk' ▸ has)

/-! ## Lemmas about the entry loop -/

/-- Keys that are no entry's target are untouched by the loop (whether or
not it aborts on a failing put). -/
theorem processEntries_get_ne (fails : String → Bool) (imgOK : ByteSeq → Bool)
    (entries : List (String × ByteSeq)) (s : Store) (k : String)
    (h : ∀ e ∈ entries, (targetKey e.1 == k) = false) :
    getObject (processEntries fails imgOK entries s).1 k = getObject s k := by
  induction entries generalizing s with
  | nil => rfl
  | cons e rest ih =>
    obtain ⟨n, p⟩ := e
    by_cases hf : fails (targetKey n) = true
    · simp [processEntries, hf]
    · simp only [processEntries]
      rw [if_neg hf]
      rw [ih _ fun e he => h e (by simp [he])]
      exact getObject_putObject_ne _ _ _ _ (h (n, p) (by simp))

/-- After a full, failure-free pass over entries with distinct names, the
store holds every entry's payload at its target key. -/
theorem processEntries_mem_get (fails : String → Bool) (imgOK : ByteSeq → Bool)
    (entries : List (String × ByteSeq)) (s : Store)
    (hnd : (entries.map Prod.fst).Nodup)
    (hf : ∀ e ∈ entries, fails (targetKey e.1) = false) :
    ∀ e ∈ entries,
      getObject (processEntries fails imgOK entries s).1 (targetKey e.1) = some e.2 := by
  induction entries generalizing s with
  | nil => intro e he; cases he
  | cons a rest ih =>
    obtain ⟨n, p⟩ := a
    intro e he
    have hfn : ¬ (fails (targetKey n) = true) := by
      rw [hf (n, p) (by simp)]
      simp
    rw [List.map_cons] at hnd
    rcases List.nodup_cons.mp hnd with ⟨hnotin, hndtl⟩
    simp only [processEntries]
    rw [if_neg hfn]
    rcases List.mem_cons.mp he with rfl | he'
    · rw [processEntries_get_ne]
      · exact getObject_putObject_self _ _ _
      · intro e' he'
        by_contra hbc
        rw [Bool.not_eq_false] at hbc
        have h1 : targetKey e'.1 = targetKey n := by simpa using hbc
        have h2 : e'.1 = n := targetKey_inj h1
        have h3 : e'.1 ∈ rest.map Prod.fst := List.mem_map_of_mem Prod.fst he'
        rw [h2] at h3
        exact hnotin h3
    · exact ih (putObject s (targetKey n) p) hndtl
        (fun e'' he'' => hf e'' (by simp [he''])) e he'

/-- A pass whose puts all rewrite payloads already in place leaves the
store untouched. -/
theorem processEntries_fix (fails : String → Bool) (imgOK : ByteSeq → Bool)
    (entries : List (String × ByteSeq)) (s : Store)
    (hnd : (s.map Prod.fst).Nodup)
    (hin : ∀ e ∈ entries, getObject s (targetKey e.1) = some e.2) :
    (processEntries fails imgOK entries s).1 = s := by
  induction entries with
  | nil => rfl
  | cons a rest ih =>
    obtain ⟨n, p⟩ := a
    by_cases hfn : fails (targetKey n) = true
    · simp [processEntries, hfn]
    · have hput : putObject s (targetKey n) p = s :=
        putObject_eq_self _ _ _ hnd (hin (n, p) (by simp))
      simp only [processEntries]
      rw [if_neg hfn, hput]
      exact ih fun e he => hin e (by simp [he])

/-- The loop preserves uniqueness of store keys. -/
theorem processEntries_keys_nodup (fails : String → Bool) (imgOK : ByteSeq → Bool)
    (entries : List (String × ByteSeq)) (s : Store)
    (h : (s.map Prod.fst).Nodup) :
    ((processEntries fails imgOK entries s).1.map Prod.fst).Nodup := by
  induction entries generalizing s with
  | nil => exact h
  | cons a rest ih =>
    obtain ⟨n, p⟩ := a
    by_cases hfn : fails (targetKey n) = true
    · simpa [processEntries, hfn] using h
    · simp only [processEntries]
      rw [if_neg hfn]
      exact ih _ (putObject_keys_nodup _ _ _ h)

/-! ## Claim C3 -/

/-- C3: for every entry of the archive, whatever the image-validity oracle
says and whatever the payload contains (malformed labels and invalid
images included), the payload is written unchanged to the target key
`Darts.v2i.yolov11/<entryName>` — the put precedes both validations, so a
validation outcome can neither prevent nor alter the write.  (Entry names
are assumed distinct and no write failure is injected; write failures are
the subject of C4.) -/
theorem C3_republish_regardless (fails : String → Bool) (imgOK : ByteSeq → Bool)
    (entries : List (String × ByteSeq)) (s : Store)
    (hnd : (entries.map Prod.fst).Nodup)
    (hf : ∀ e ∈ entries, fails (targetKey e.1) = false) :
    ∀ e ∈ entries,
      getObject (processEntries fails imgOK entries s).1 (targetKey e.1) = some e.2 :=
  processEntries_mem_get fails imgOK entries s hnd hf

/-- Witness for C3 at the spec scenario: the Invalid label
`"1 -0.1 0.2 0.3 0.4"` is still republished under its target key. -/
theorem C3_republish_regardless_witness :
    getObject (processEntries noFail (fun _ => false)
      [("train/labels/a.txt", asciiEnc "1 -0.1 0.2 0.3 0.4"),
       ("valid/images/b.png", [0, 1, 2])] []).1
      (targetKey "train/labels/a.txt") = some (asciiEnc "1 -0.1 0.2 0.3 0.4") :=
  C3_republish_regardless noFail (fun _ => false) _ [] (by decide) (by decide)
    ("train/labels/a.txt", asciiEnc "1 -0.1 0.2 0.3 0.4") (by decide)

/-! ## Claim C9 -/

/-- C9: republishing is idempotent — the target key is the fixed pure
function `targetKey` of the entry name alone, so a second failure-free
pass over the same archive (under any image-validity oracle; validation
never writes) overwrites each target key with the bytes it already holds,
leaving the namespace in exactly the state of a single run. -/
theorem C9_idempotent (imgOK imgOK' : ByteSeq → Bool)
    (entries : List (String × ByteSeq)) (s : Store)
    (hnd : (entries.map Prod.fst).Nodup) (hs : (s.map Prod.fst).Nodup) :
    (processEntries noFail imgOK' entries
        (processEntries noFail imgOK entries s).1).1 =
      (processEntries noFail imgOK entries s).1 :=
  processEntries_fix noFail imgOK' entries _
    (processEntries_keys_nodup noFail imgOK entries s hs)
    (processEntries_mem_get noFail imgOK entries s hnd fun _ _ => rfl)

/-- Witness for C9 on a two-entry archive over a non-empty store, with the
two runs using different image oracles. -/
theorem C9_idempotent_witness :
    (processEntries noFail (fun _ => false)
        [("train/images/a.jpg", [7]), ("train/labels/a.txt", [8])]
        (processEntries noFail (fun _ => true)
          [("train/images/a.jpg", [7]), ("train/labels/a.txt", [8])]
          [("zzz", [1])]).1).1 =
      (processEntries noFail (fun _ => true)
        [("train/images/a.jpg", [7]), ("train/labels/a.txt", [8])]
        [("zzz", [1])]).1 :=
  C9_idempotent (fun _ => true) (fun _ => false) _ _ (by decide) (by decide)

/-! ## Claim C4 -/

/-- A failing put aborts the loop: processing `pre ++ (n, p) :: post` where
every put in `pre` succeeds and the put of `n` fails is exactly the run
over `pre` with the escaped `put` exception. -/
theorem processEntries_abort (fails : String → Bool) (imgOK : ByteSeq → Bool)
    (pre post : List (String × ByteSeq)) (n : String) (p : ByteSeq) (s : Store)
    (hpre : ∀ e ∈ pre, fails (targetKey e.1) = false)
    (hn : fails (targetKey n) = true) :
    processEntries fails imgOK (pre ++ (n, p) :: post) s =
      ((processEntries fails imgOK pre s).1,
       (processEntries fails imgOK pre s).2.1, some .putErr) := by
  induction pre generalizing s with
  | nil =>
    simp only [List.nil_append, processEntries]
    rw [if_pos hn]
  | cons a pre ih =>
    obtain ⟨m, q⟩ := a
    have hm : ¬ (fails (targetKey m) = true) := by
      rw [hpre (m, q) (by simp)]
      simp
    have ihs := ih (putObject s (targetKey m) q) fun e he => hpre e (by simp [he])
    simp only [List.cons_append, processEntries, List.append_eq]
    rw [if_neg hm, if_neg hm, ihs]

/-- C4 amended: a failing put is not contained to its entry — the
exception propagates out of the entry loop to the function-level handler,
so the failing entry and every entry after it are neither extracted,
validated nor republished; only the entries before the failure were
processed, and the single escaped error is what gets logged.  (The handler
does catch it, so the offending call returns and later stages still run.) -/
theorem C4_amended (fails : String → Bool) (imgOK : ByteSeq → Bool)
    (pre post : List (String × ByteSeq)) (n : String) (p : ByteSeq) (s : Store)
    (hpre : ∀ e ∈ pre, fails (targetKey e.1) = false)
    (hn : fails (targetKey n) = true) :
    processEntries fails imgOK (pre ++ (n, p) :: post) s =
      ((processEntries fails imgOK pre s).1,
       (processEntries fails imgOK pre s).2.1, some .putErr) ∧
    (∀ e ∈ (n, p) :: post,
      (∀ e' ∈ pre, (targetKey e'.1 == targetKey e.1) = false) →
      getObject s (targetKey e.1) = none →
      getObject (processEntries fails imgOK (pre ++ (n, p) :: post) s).1
        (targetKey e.1) = none) := by
  have habort := processEntries_abort fails imgOK pre post n p s hpre hn
  refine ⟨habort, ?_⟩
  intro e _he hne hg
  rw [habort]
  exact (processEntries_get_ne fails imgOK pre s (targetKey e.1) hne).trans hg

/-- Counterexample to C4: with the put of `a.txt` failing, the whole batch
is aborted — no outcome is recorded for either entry, and `b.txt` is never
republished, contradicting "the remaining entries of the archive are still
extracted, validated and republished". -/
theorem C4_counterexample :
    processEntries (fun k => k == "Darts.v2i.yolov11/a.txt") (fun _ => true)
      [("a.txt", [48]), ("b.txt", [49])] [] = ([], [], some .putErr) ∧
    getObject (processEntries (fun k => k == "Darts.v2i.yolov11/a.txt")
      (fun _ => true) [("a.txt", [48]), ("b.txt", [49])] []).1
      (targetKey "b.txt") = none := by decide

/-- Witness for C4 amended: with the second of three entries failing, the
run equals the one-entry run plus the escaped error, and the third entry's
key is never written. -/
theorem C4_amended_witness :
    processEntries (fun k => k == "Darts.v2i.yolov11/b.txt") (fun _ => true)
      [("a.txt", [48]), ("b.txt", [49]), ("c.txt", [50])] [] =
      ((processEntries (fun k => k == "Darts.v2i.yolov11/b.txt") (fun _ => true)
          [("a.txt", [48])] []).1,
       (processEntries (fun k => k == "Darts.v2i.yolov11/b.txt") (fun _ => true)
          [("a.txt", [48])] []).2.1, some .putErr) :=
  (C4_amended (fun k => k == "Darts.v2i.yolov11/b.txt") (fun _ => true)
    [("a.txt", [48])] [("c.txt", [50])] "b.txt" [49] [] (by decide) (by decide)).1

/-! ## Claim C5 -/

/-- C5 amended: when the archive object is missing, `get_object` raises
inside the unzip `try`, so no entries are processed and no keys are
written — but the exception is caught by the function-level handler and
only logged; `__main__` then still runs structure verification and stats
over the untouched store, and the process finishes with exit status 0.
`manage_dataset.py`'s preflight `check_aws_connection` returns True for
the same store (its listing result is only logged), so neither script
aborts the run on a missing archive. -/
theorem C5_amended (fails : String → Bool) (imgOK : ByteSeq → Bool)
    (parseZip : ByteSeq → Option (List (String × ByteSeq))) (s : Store)
    (h : getObject s "Darts.v2i.yolov11.zip" = none) :
    process_dataset_main fails imgOK parseZip s =
      { store := s, unzipError := some .noSuchKey, outcomes := [],
        structureReport := verify_dataset_structure s,
        stats := list_dataset_stats s, exitCode := 0 } ∧
    check_aws_connection s = true := by
  constructor
  · simp only [process_dataset_main, unzip_s3_dataset, h]
  · rfl

/-- Counterexample to C5: with the archive object absent from the store,
the model of `__main__` still runs structure verification (reporting all
six subpaths, here all missing) and the stats stage, and the process exits
with status 0 rather than a non-zero status; the cited preflight
`check_aws_connection` also returns True, aborting nothing. -/
theorem C5_counterexample :
    (process_dataset_main noFail (fun _ => true) (fun _ => none)
      [("other", [1])]).exitCode = 0 ∧
    (process_dataset_main noFail (fun _ => true) (fun _ => none)
      [("other", [1])]).structureReport =
        expected_dirs.map (fun d => (d, false)) ∧
    (process_dataset_main noFail (fun _ => true) (fun _ => none)
      [("other", [1])]).outcomes = [] ∧
    (process_dataset_main noFail (fun _ => true) (fun _ => none)
      [("other", [1])]).unzipError = some .noSuchKey ∧
    check_aws_connection [("other", [1])] = true := by decide

/-- Witness for C5 amended at the empty store. -/
theorem C5_amended_witness :
    process_dataset_main noFail (fun _ => false) (fun _ => none) [] =
      { store := [], unzipError := some .noSuchKey, outcomes := [],
        structureReport := expected_dirs.map (fun d => (d, false)),
        stats := none, exitCode := 0 } := by
  rw [(C5_amended noFail (fun _ => false) (fun _ => none) [] (by decide)).1]
  decide

/-! ## Claim C7 -/

/-- The `MaxKeys=1` listing has a `Contents` entry exactly when some object
key extends the listed string. -/
theorem presence_iff (s : Store) (pfx : String) :
    (!((listObjects s pfx).take 1).isEmpty) = true ↔
      ∃ e ∈ s, strStartsWith e.1 pfx = true := by
  rw [listObjects]
  induction s with
  | nil => simp
  | cons e s ih =>
    by_cases h : strStartsWith e.1 pfx = true
    · simp [List.filter_cons, h]
    · simp [List.filter_cons, h, ih]

/-- In-place replacement of a key outside the listed namespace does not
change a listing. -/
theorem filter_starts_map_replace (s : Store) (k : String) (v : ByteSeq)
    (pfx : String) (hk : strStartsWith k pfx = false) :
    (s.map (fun e => if e.1 == k then (k, v) else e)).filter
        (fun e => strStartsWith e.1 pfx) =
      s.filter (fun e => strStartsWith e.1 pfx) := by
  induction s with
  | nil => rfl
  | cons e s ih =>
    rw [List.map_cons]
    by_cases he : (e.1 == k) = true
    · have hek : e.1 = k := by simpa using he
      rw [if_pos he, List.filter_cons, List.filter_cons,
        if_neg (by simp [hk]), if_neg (by rw [hek]; simp [hk]), ih]
    · rw [if_neg he, List.filter_cons, List.filter_cons, ih]

/-- A put outside the listed namespace does not change a listing. -/
theorem listObjects_putObject (s : Store) (k : String) (v : ByteSeq)
    (pfx : String) (hk : strStartsWith k pfx = false) :
    listObjects (putObject s k v) pfx = listObjects s pfx := by
  rw [putObject]
  cases ha : s.any (fun e => e.1 == k) with
  | true =>
    rw [if_pos rfl]
    exact filter_starts_map_replace s k v pfx hk
  | false =>
    rw [if_neg (by simp), listObjects, listObjects, List.filter_append]
    simp [List.filter_cons, hk]

/-- C7: structure verification checks exactly the six fixed subpaths under
the dataset namespace, in order; each is reported present exactly when at
least one object key lies under `Darts.v2i.yolov11/<subpath>/` (one listed
object suffices); putting any object outside those six sub-namespaces
never changes the report; and a missing subpath never aborts the run — the
report is pure data and `__main__` computes the stats stage on the same
store regardless of it. -/
theorem C7_structure_verification (s : Store) :
    ((verify_dataset_structure s).map Prod.fst = expected_dirs) ∧
    (∀ d b, (d, b) ∈ verify_dataset_structure s →
      (b = true ↔
        ∃ e ∈ s, strStartsWith e.1 ("Darts.v2i.yolov11/" ++ d ++ "/") = true)) ∧
    (∀ (k : String) (v : ByteSeq),
      (∀ d ∈ expected_dirs,
        strStartsWith k ("Darts.v2i.yolov11/" ++ d ++ "/") = false) →
      verify_dataset_structure (putObject s k v) = verify_dataset_structure s) ∧
    (∀ (fails : String → Bool) (imgOK : ByteSeq → Bool)
       (parseZip : ByteSeq → Option (List (String × ByteSeq))),
      (process_dataset_main fails imgOK parseZip s).stats =
        list_dataset_stats (process_dataset_main fails imgOK parseZip s).store) := by
  refine ⟨?_, ?_, ?_, ?_⟩
  · simp [verify_dataset_structure, List.map_map, Function.comp_def]
  · intro d b hmem
    rw [verify_dataset_structure] at hmem
    rcases List.mem_map.mp hmem with ⟨d', _hd', heq⟩
    cases heq
    exact presence_iff s _
  · intro k v hk
    rw [verify_dataset_structure, verify_dataset_structure]
    refine List.map_congr_left fun d hd => ?_
    rw [listObjects_putObject s k v _ (hk d hd)]
  · intro fails imgOK parseZip
    rfl

/-- Witness for C7: adding an object under an unexpected subpath leaves the
structure report unchanged. -/
theorem C7_structure_verification_witness :
    verify_dataset_structure
        (putObject [("Darts.v2i.yolov11/train/images/a.jpg", [1])]
          "Darts.v2i.yolov11/extra/x.bin" [2]) =
      verify_dataset_structure [("Darts.v2i.yolov11/train/images/a.jpg", [1])] :=
  (C7_structure_verification _).2.2.1 "Darts.v2i.yolov11/extra/x.bin" [2] (by decide)

/-! ## Claim C8 -/

/-- An initial-segment test survives mapping both sides. -/
theorem listIsPre_map (f : Char → Char) (a b : List Char)
    (h : listIsPre a b = true) : listIsPre (a.map f) (b.map f) = true := by
  induction a generalizing b with
  | nil => rfl
  | cons x a ih =>
    cases b with
    | nil => exact absurd h (by simp [listIsPre])
    | cons y b =>
      rw [listIsPre, Bool.and_eq_true] at h
      have hxy : x = y := by simpa using h.1
      rw [List.map_cons, List.map_cons, listIsPre, hxy, Bool.and_eq_true]
      exact ⟨by simp, ih b h.2⟩

/-- Lowercasing the subject preserves an already-lowercase suffix test. -/
theorem strEndsWith_lower (k pat : String) (hpat : pyLower pat = pat)
    (h : strEndsWith k pat = true) : strEndsWith (pyLower k) pat = true := by
  rw [strEndsWith] at h ⊢
  have hmap := listIsPre_map pyLowerChar _ _ h
  rw [List.map_reverse, List.map_reverse] at hmap
  have hp : pat.data.map pyLowerChar = pat.data := congrArg String.data hpat
  rw [hp] at hmap
  exact hmap

/-- Counterexample to C8: the per-entry classifier lowercases the entry
name before the suffix test but the stats counters test the raw key, so
the two classifications disagree on every upper-case suffix. -/
theorem C8_counterexample :
    isImageName "A.JPG" = true ∧ statsIsImage "A.JPG" = false ∧
    isLabelName "T.TXT" = true ∧ statsIsLabel "T.TXT" = false := by decide

/-- C8 amended: the Stats Aggregator classifies by case-SENSITIVE suffix
match (`.jpg`/`.jpeg`/`.png` → Image, `.txt` → Label, no `.lower()`), a
strict refinement of the per-entry classifier's case-insensitive rule:
every key the stats counters count as image (label) is classified image
(label) by the per-entry classifier, and on keys already in lower case the
two rules agree; keys with upper-case suffixes are classified Image/Label
per entry but counted by neither stats counter. -/
theorem C8_amended (k : String) :
    (statsIsImage k = true → isImageName k = true) ∧
    (statsIsLabel k = true → isLabelName k = true) ∧
    (pyLower k = k →
      statsIsImage k = isImageName k ∧ statsIsLabel k = isLabelName k) := by
  refine ⟨?_, ?_, ?_⟩
  · intro h
    rw [statsIsImage] at h
    rw [isImageName]
    by_cases h1 : strEndsWith k ".jpg" = true
    · simp [strEndsWith_lower k ".jpg" (by decide) h1]
    · rw [Bool.not_eq_true] at h1
      rw [h1, Bool.false_or] at h
      by_cases h2 : strEndsWith k ".jpeg" = true
      · simp [strEndsWith_lower k ".jpeg" (by decide) h2]
      · rw [Bool.not_eq_true] at h2
        rw [h2, Bool.false_or] at h
        simp [strEndsWith_lower k ".png" (by decide) h]
  · intro h
    rw [statsIsLabel] at h
    rw [isLabelName]
    exact strEndsWith_lower k ".txt" (by decide) h
  · intro hlow
    constructor
    · rw [statsIsImage, isImageName, hlow]
    · rw [statsIsLabel, isLabelName, hlow]

/-- Witness for C8 amended at lower-case keys. -/
theorem C8_amended_witness :
    isImageName "b.png" = true ∧ statsIsLabel "c.txt" = isLabelName "c.txt" :=
  ⟨(C8_amended "b.png").1 (by decide), ((C8_amended "c.txt").2.2 (by decide)).2⟩
